import Mathlib

/-!
Verification development for the distributed job queue of the repository
(audio_worker.py, local_video_worker.py, audio_queue_manager.py).

The job store (Supabase tables `audio_jobs` / `video_jobs`) is modelled as a
list of job records; the worker registry (`audio_workers` / `video_workers`)
as a list of worker rows.  Every Supabase call of the form
`.update({...}).eq(col, v)[.eq(col2, v2)].execute()` is a single atomic
conditional update: it rewrites every row matching all filters and returns
the list of rewritten rows (`result.data`).  A `.select(...).eq(...)` call
returns the matching rows in store order; `.order(...)` sorts them.
Timestamps are naturals, job/worker identifiers and statuses are strings,
exactly the string literals of the source.

The `Job` structure is the union of the columns the two job tables share
plus the kind-specific payload/result columns each worker reads or writes
(`script_text`, `reference_audio_gdrive_id`, `audio_gdrive_id`,
`gofile_link` for audio jobs; `image_gdrive_id`, `video_gdrive_id`,
`video_gofile_link`, `subtitle_style` for video jobs).
-/

structure Job where
  job_id : String
  status : String
  priority : Int
  created_at : Nat
  worker_id : Option String
  processing_started_at : Option Nat
  completed_at : Option Nat
  retry_count : Nat
  error_message : Option String
  chat_id : String
  script_text : String
  reference_audio_gdrive_id : Option String
  audio_gdrive_id : Option String
  gofile_link : Option String
  image_gdrive_id : Option String
  video_gdrive_id : Option String
  video_gofile_link : Option String
  subtitle_style : Option String
  deriving Repr, DecidableEq

structure WorkerRow where
  worker_id : String
  status : String
  jobs_completed : Nat
  jobs_failed : Nat
  deriving Repr, DecidableEq

abbrev JobStore := List Job
abbrev WorkerStore := List WorkerRow

/-- Atomic conditional update of a Supabase table:
`.update(f).eq-filters p .execute()` rewrites every row satisfying `p` and
returns the new store together with the list of rewritten rows
(the `result.data` the client code inspects for emptiness). -/
def updateWhere {α : Type} (p : α → Bool) (f : α → α) : List α → List α × List α
  | [] => ([], [])
  | x :: rest =>
    let r := updateWhere p f rest
    if p x then (f x :: r.1, f x :: r.2) else (x :: r.1, r.2)

/-- `.select(..).eq('job_id', id).execute()` followed by `result.data[0]`:
the first row of the store whose `job_id` matches. -/
def findJob (s : JobStore) (id : String) : Option Job :=
  s.find? (fun j => j.job_id == id)

/-- First worker row with the given `worker_id` (`worker.data[0]`). -/
def findWorker (ws : WorkerStore) (wid : String) : Option WorkerRow :=
  ws.find? (fun w => w.worker_id == wid)

/-- Comparator realising `ORDER BY priority DESC, created_at ASC`
(audio_worker.get_pending_job lines 148-149). -/
def jobLe (a b : Job) : Bool :=
  b.priority < a.priority || (a.priority == b.priority && a.created_at ≤ b.created_at)

/-- audio_worker.get_pending_job, candidate query (lines 145-151):
`select * from audio_jobs where status = 'pending'
 order by priority desc, created_at asc limit 1`. -/
def audioListClaimable (s : JobStore) (limit : Nat) : List Job :=
  ((s.filter (fun j => j.status == "pending")).mergeSort jobLe).take limit

/-- local_video_worker.get_pending_job, candidate query (lines 125-129):
`select * from video_jobs where status = 'pending' limit 1` — no ORDER BY;
rows come back in store order. -/
def videoListClaimable (s : JobStore) (limit : Nat) : List Job :=
  (s.filter (fun j => j.status == "pending")).take limit

/-- audio_worker.get_pending_job, claim step (lines 163-171): the atomic
conditional update
`update audio_jobs set status='processing', processing_started_at=now,
 worker_id=wid where job_id = id and status = 'pending'`,
returning whether `claim_result.data` was non-empty. -/
def audioTryClaim (s : JobStore) (id wid : String) (now : Nat) : JobStore × Bool :=
  let r := updateWhere (fun j => j.job_id == id && j.status == "pending")
    (fun j => { j with status := "processing", processing_started_at := some now,
                       worker_id := some wid }) s
  (r.1, !r.2.isEmpty)

/-- local_video_worker.get_pending_job, claim step (lines 142-150): identical
conditional update against `video_jobs`. -/
def videoTryClaim (s : JobStore) (id wid : String) (now : Nat) : JobStore × Bool :=
  let r := updateWhere (fun j => j.job_id == id && j.status == "pending")
    (fun j => { j with status := "processing", processing_started_at := some now,
                       worker_id := some wid }) s
  (r.1, !r.2.isEmpty)

/-- audio_worker.get_pending_job (lines 135-184) with the select and the
claim running against possibly different store states (`s1` at select time,
`s2` at update time — another worker may write in between; each single call
is atomic but the pair is not).  Returns the new store and the job dict the
worker goes on to process (`None` both when no pending row exists and when
the claim update matched nothing). -/
def audioGetPendingJobI (s1 s2 : JobStore) (wid : String) (now : Nat) :
    JobStore × Option Job :=
  match (audioListClaimable s1 1).head? with
  | none => (s2, none)
  | some job =>
    let r := audioTryClaim s2 job.job_id wid now
    if r.2 then (r.1, some job) else (r.1, none)

/-- audio_worker.get_pending_job with no interleaved writer. -/
def audioGetPendingJob (s : JobStore) (wid : String) (now : Nat) :
    JobStore × Option Job :=
  audioGetPendingJobI s s wid now

/-- local_video_worker.get_pending_job (lines 112-163), two-state form. -/
def videoGetPendingJobI (s1 s2 : JobStore) (wid : String) (now : Nat) :
    JobStore × Option Job :=
  match (videoListClaimable s1 1).head? with
  | none => (s2, none)
  | some job =>
    let r := videoTryClaim s2 job.job_id wid now
    if r.2 then (r.1, some job) else (r.1, none)

/-- local_video_worker.get_pending_job with no interleaved writer. -/
def videoGetPendingJob (s : JobStore) (wid : String) (now : Nat) :
    JobStore × Option Job :=
  videoGetPendingJobI s s wid now

/-- Worker-stats read-modify-write of audio_worker.mark_job_completed
(lines 197-206) / local_video_worker (lines 188-197): select
`jobs_completed` for this worker; if a row came back, set
`jobs_completed = current + 1` on every matching row. -/
def incJobsCompleted (ws : WorkerStore) (wid : String) : WorkerStore :=
  match findWorker ws wid with
  | none => ws
  | some w =>
    (updateWhere (fun x => x.worker_id == wid)
      (fun x => { x with jobs_completed := w.jobs_completed + 1 }) ws).1

/-- Same read-modify-write for `jobs_failed`
(audio_worker lines 235-244 / local_video_worker lines 226-235). -/
def incJobsFailed (ws : WorkerStore) (wid : String) : WorkerStore :=
  match findWorker ws wid with
  | none => ws
  | some w =>
    (updateWhere (fun x => x.worker_id == wid)
      (fun x => { x with jobs_failed := w.jobs_failed + 1 }) ws).1

/-- audio_worker.mark_job_completed (lines 186-211):
unconditional update by `job_id` setting status, completion timestamp and
the audio result columns, then the worker-stats increment. -/
def audioMarkJobCompleted (s : JobStore) (ws : WorkerStore) (selfWid : String)
    (id : String) (audioGdriveId : String) (gofileLink : Option String) (now : Nat) :
    JobStore × WorkerStore :=
  let r := updateWhere (fun j => j.job_id == id)
    (fun j => { j with status := "completed", completed_at := some now,
                       audio_gdrive_id := some audioGdriveId,
                       gofile_link := gofileLink }) s
  (r.1, incJobsCompleted ws selfWid)

/-- local_video_worker.mark_job_completed (lines 177-202): same shape with
the video result columns. -/
def videoMarkJobCompleted (s : JobStore) (ws : WorkerStore) (selfWid : String)
    (id : String) (videoGdriveId : String) (videoGofileLink : String) (now : Nat) :
    JobStore × WorkerStore :=
  let r := updateWhere (fun j => j.job_id == id)
    (fun j => { j with status := "completed", completed_at := some now,
                       video_gdrive_id := some videoGdriveId,
                       video_gofile_link := some videoGofileLink }) s
  (r.1, incJobsCompleted ws selfWid)

/-- audio_worker.mark_job_failed (lines 213-249): read the first matching
row's `retry_count` (new count defaults to 1 when no row matches), pick
`'failed'` when the new count reaches `max_retries` else `'pending'`,
unconditionally update status / truncated error / retry_count by `job_id`,
and bump `jobs_failed` when permanently failed. -/
def audioMarkJobFailed (s : JobStore) (ws : WorkerStore) (selfWid : String)
    (maxRetries : Nat) (id errorMsg : String) : JobStore × WorkerStore :=
  let retryCount := match findJob s id with
    | some j => j.retry_count + 1
    | none => 1
  let status := if maxRetries ≤ retryCount then "failed" else "pending"
  let r := updateWhere (fun j => j.job_id == id)
    (fun j => { j with status := status,
                       error_message := some (errorMsg.take 500),
                       retry_count := retryCount }) s
  (r.1, if status == "failed" then incJobsFailed ws selfWid else ws)

/-- local_video_worker.mark_job_failed (lines 204-240): textually the same
logic against `video_jobs`. -/
def videoMarkJobFailed (s : JobStore) (ws : WorkerStore) (selfWid : String)
    (maxRetries : Nat) (id errorMsg : String) : JobStore × WorkerStore :=
  let retryCount := match findJob s id with
    | some j => j.retry_count + 1
    | none => 1
  let status := if maxRetries ≤ retryCount then "failed" else "pending"
  let r := updateWhere (fun j => j.job_id == id)
    (fun j => { j with status := status,
                       error_message := some (errorMsg.take 500),
                       retry_count := retryCount }) s
  (r.1, if status == "failed" then incJobsFailed ws selfWid else ws)

/-- audio_queue_manager.cancel_job (lines 349-376): conditional update
`set status='failed', error_message='Cancelled by user'
 where job_id = id and status = 'pending'`; returns True iff a row was
rewritten. -/
def cancelJob (s : JobStore) (id : String) : JobStore × Bool :=
  let r := updateWhere (fun j => j.job_id == id && j.status == "pending")
    (fun j => { j with status := "failed",
                       error_message := some "Cancelled by user" }) s
  (r.1, !r.2.isEmpty)

/-- A run of TryClaim calls against the same job id, executed in the serial
order the store applied them: each claim update is one atomic store
operation, so any concurrent execution of N such calls is equivalent to
some serialisation.  Returns the final store and each call's boolean. -/
def audioTryClaimSeq (s : JobStore) (id : String) :
    List (String × Nat) → JobStore × List Bool
  | [] => (s, [])
  | (wid, now) :: rest =>
    let r := audioTryClaim s id wid now
    let rr := audioTryClaimSeq r.1 id rest
    (rr.1, r.2 :: rr.2)

/-- One iteration of audio_worker.run (lines 686-701): `job =
get_pending_job(); if job: process_job(job) else: sleep(poll_interval)`.
The iteration sleeps the poll interval exactly when `get_pending_job`
returned `None`. -/
def audioRunCycleSleeps (s1 s2 : JobStore) (wid : String) (now : Nat) : Bool :=
  ((audioGetPendingJobI s1 s2 wid now).2).isNone

/-- One iteration of local_video_worker.run (lines 579-598): the
`await asyncio.sleep(self.poll_interval)` at line 598 sits after the
if/else, so it executes on every iteration whatever `get_pending_job`
returned. -/
def videoRunCycleSleeps (s1 s2 : JobStore) (wid : String) (now : Nat) : Bool :=
  let _job := (videoGetPendingJobI s1 s2 wid now).2
  true

/-- The worker-local file system: the set of scratch paths that exist,
as a list (paths are unique in a real file system).  `os.remove(p)` inside
`try/except pass` deletes the path when present and is a no-op when not. -/
def removeFile (fs : List String) (p : String) : List String :=
  fs.filter (fun q => q != p)

/-- Scratch path of audio_worker.generate_audio_f5 (lines 349-350):
`os.path.join(self.output_dir, f"{job_id}_raw") + ".wav"`, modelled by its
job-dependent file name. -/
def audioScratchPath (id : String) : String := id ++ "_raw.wav"

/-- Outcomes of the external steps of audio_worker.process_job for one job:
reference-audio sync, F5-TTS generation (`genError = some msg` is the
handler reporting failure, in which case no scratch file was written),
and the Google-Drive upload. -/
structure AudioExecEnv where
  syncOk : Bool
  genError : Option String
  uploadId : Option String
  deriving Repr, DecidableEq

/-- State after a process_job call: the two store tables, the worker-local
files, and which Telegram notifications were attempted. -/
structure ProcResult where
  jobs : JobStore
  workers : WorkerStore
  files : List String
  successNotif : Bool
  failureNotif : Bool
  deriving Repr, DecidableEq

/-- The `try:` body of audio_worker.process_job (lines 572-656).  A raised
exception is `.error (message, files at the raise point)`; the normal exit
carries the updated stores, files and the success-notification flag.
Steps 1-3 raise on failure; steps 4-7 run only on full success: tracking
update, success notification, mark_job_completed, and removal of the
scratch file (`os.remove(audio_path)` in `try/except pass`). -/
def audioProcessJobBody (env : AudioExecEnv) (s : JobStore) (ws : WorkerStore)
    (fs : List String) (job : Job) (wid : String) (now : Nat) :
    Except (String × List String) (JobStore × WorkerStore × List String × Bool) :=
  if job.reference_audio_gdrive_id.isSome && !env.syncOk then
    .error ("Failed to sync reference audio", fs)
  else
    match env.genError with
    | some msg => .error (msg, fs)
    | none =>
      let fs1 := audioScratchPath job.job_id :: fs
      match env.uploadId with
      | none => .error ("Failed to upload audio to GDrive", fs1)
      | some gid =>
        let r := audioMarkJobCompleted s ws wid job.job_id gid none now
        .ok (r.1, r.2, removeFile fs1 (audioScratchPath job.job_id), true)

/-- audio_worker.process_job (lines 555-672): the `try:` body above with
its `except Exception` handler (lines 658-672), which converts every
raised error into `mark_job_failed` (max_retries = 3, message prefixed
`"Job processing error: "`) plus a failure-notification attempt, and
returns normally — no exception escapes process_job. -/
def audioProcessJob (env : AudioExecEnv) (s : JobStore) (ws : WorkerStore)
    (fs : List String) (job : Job) (wid : String) (now : Nat) : ProcResult :=
  match audioProcessJobBody env s ws fs job wid now with
  | .ok (s2, ws2, fs2, notif) =>
    { jobs := s2, workers := ws2, files := fs2,
      successNotif := notif, failureNotif := false }
  | .error (e, fsE) =>
    let r := audioMarkJobFailed s ws wid 3 job.job_id ("Job processing error: " ++ e)
    { jobs := r.1, workers := r.2, files := fsE,
      successNotif := false, failureNotif := true }

/-- Outcomes of the external steps of local_video_worker.process_job
(single-image mode, `is_jesus_folder_active() = False`; the output folder
environment variable is assumed configured, as in deployment). -/
structure VideoExecEnv where
  audioDownloadOk : Bool
  imageDownloadOk : Bool
  genOk : Bool
  gdriveUploadId : Option String
  gofileLink : Option String
  deriving Repr, DecidableEq

/-- `os.path.join(self.work_dir, f"{job_id}_audio.wav")` (line 338). -/
def videoAudioPath (id : String) : String := id ++ "_audio.wav"

/-- `os.path.join(self.work_dir, f"{job_id}_image.jpg")` (line 367). -/
def videoImagePath (id : String) : String := id ++ "_image.jpg"

/-- `os.path.join(self.work_dir, f"{job_id}_final_video.mp4")` (line 382). -/
def videoFinalPath (id : String) : String := id ++ "_final_video.mp4"

/-- The `finally:` block of local_video_worker.process_job (lines 527-536):
remove each of audio_path, image_path, video_path when it exists. -/
def videoFinallyCleanup (fs : List String) (id : String) : List String :=
  removeFile (removeFile (removeFile fs (videoAudioPath id))
    (videoImagePath id)) (videoFinalPath id)

/-- The `try:` body of local_video_worker.process_job (lines 326-508).
`download_from_gdrive` opens its output path for writing before streaming,
so the target file exists even when the download then fails; the rendered
video file is written only on successful generation.  Uploads do not raise:
`mark_job_completed` receives `gdrive_file_id or ''` and
`gofile_link or ''`. -/
def videoProcessJobBody (env : VideoExecEnv) (s : JobStore) (ws : WorkerStore)
    (fs : List String) (job : Job) (wid : String) (now : Nat) :
    Except (String × List String) (JobStore × WorkerStore × List String × Bool) :=
  let fs1 := videoAudioPath job.job_id :: fs
  if !env.audioDownloadOk then .error ("Failed to download audio", fs1)
  else
    let fs2 := videoImagePath job.job_id :: fs1
    if !env.imageDownloadOk then .error ("Failed to download image", fs2)
    else if !env.genOk then .error ("Video generation failed", fs2)
    else
      let fs3 := videoFinalPath job.job_id :: fs2
      let r := videoMarkJobCompleted s ws wid job.job_id
        (env.gdriveUploadId.getD "") (env.gofileLink.getD "") now
      .ok (r.1, r.2, fs3, true)

/-- local_video_worker.process_job (lines 307-536): the `try:` body with
its `except Exception` handler (lines 510-525) — `mark_job_failed`
(max_retries = 3) plus a failure notification — and the `finally:` cleanup
running on both exits.  No exception escapes process_job. -/
def videoProcessJob (env : VideoExecEnv) (s : JobStore) (ws : WorkerStore)
    (fs : List String) (job : Job) (wid : String) (now : Nat) : ProcResult :=
  match videoProcessJobBody env s ws fs job wid now with
  | .ok (s2, ws2, fs2, notif) =>
    { jobs := s2, workers := ws2, files := videoFinallyCleanup fs2 job.job_id,
      successNotif := notif, failureNotif := false }
  | .error (e, fsE) =>
    let r := videoMarkJobFailed s ws wid 3 job.job_id e
    { jobs := r.1, workers := r.2, files := videoFinallyCleanup fsE job.job_id,
      successNotif := false, failureNotif := true }

/-- A job record with defaulted columns, used to build concrete stores. -/
def baseJob : Job :=
  { job_id := "", status := "pending", priority := 0, created_at := 0,
    worker_id := none, processing_started_at := none, completed_at := none,
    retry_count := 0, error_message := none, chat_id := "1", script_text := "",
    reference_audio_gdrive_id := none, audio_gdrive_id := none,
    gofile_link := none, image_gdrive_id := none, video_gdrive_id := none,
    video_gofile_link := none, subtitle_style := none }

/-! ### Store lemmas -/

theorem updateWhere_fst {α : Type} (p : α → Bool) (f : α → α) (s : List α) :
    (updateWhere p f s).1 = s.map (fun x => if p x then f x else x) := by
  induction s with
  | nil => rfl
  | cons x rest ih =>
    simp only [updateWhere, List.map_cons]
    by_cases h : p x = true
    · simp [h, ih]
    · simp [h, ih]

theorem updateWhere_snd {α : Type} (p : α → Bool) (f : α → α) (s : List α) :
    (updateWhere p f s).2 = (s.filter p).map f := by
  induction s with
  | nil => rfl
  | cons x rest ih =>
    simp only [updateWhere, List.filter_cons]
    by_cases h : p x = true
    · simp [h, ih]
    · simp [h, ih]

theorem updateWhere_fst_of_none {α : Type} {p : α → Bool} {f : α → α} {s : List α}
    (h : ∀ x ∈ s, p x = false) : (updateWhere p f s).1 = s := by
  rw [updateWhere_fst]
  induction s with
  | nil => rfl
  | cons x rest ih =>
    simp only [List.map_cons]
    rw [h x (by simp)]
    simp only [Bool.false_eq_true, if_false, List.cons.injEq, true_and]
    exact ih (fun y hy => h y (by simp [hy]))

theorem updateWhere_snd_empty_iff {α : Type} {p : α → Bool} {f : α → α} {s : List α} :
    (updateWhere p f s).2.isEmpty = true ↔ ∀ x ∈ s, p x = false := by
  rw [updateWhere_snd, List.isEmpty_iff, List.map_eq_nil_iff, List.filter_eq_nil_iff]
  simp

theorem find?_map_if {α : Type} (p : α → Bool) (f : α → α)
    (hp : ∀ x, p (f x) = p x) (s : List α) :
    (s.map (fun x => if p x then f x else x)).find? p = (s.find? p).map f := by
  induction s with
  | nil => rfl
  | cons x rest ih =>
    by_cases h : p x = true
    · simp [List.find?_cons, h, hp]
    · simp only [Bool.not_eq_true] at h
      simp [List.find?_cons, h, ih]

theorem forall₂_map_self {α : Type} (R : α → α → Prop) (g : α → α) (s : List α)
    (h : ∀ x ∈ s, R x (g x)) : List.Forall₂ R s (s.map g) := by
  induction s with
  | nil => simp
  | cons x rest ih =>
    simp only [List.map_cons, List.forall₂_cons]
    exact ⟨h x (by simp), ih (fun y hy => h y (by simp [hy]))⟩

/-- `errorMsg[:500]` leaves a message of at most 500 characters alone. -/
theorem take500_of_short (msg : String) (h : msg.length ≤ 500) : msg.take 500 = msg := by
  rw [String.take_eq, List.take_of_length_le]
  rw [String.length] at h
  exact h

theorem length_take500 (msg : String) : (msg.take 500).length ≤ 500 := by
  rw [String.take_eq]
  show (List.take 500 msg.data).length ≤ 500
  rw [List.length_take]
  exact Nat.min_le_left _ _

/-! ### TryClaim lemmas -/

/-- The store component of a claim update, as a map over the rows. -/
theorem audioTryClaim_fst (s : JobStore) (id wid : String) (now : Nat) :
    (audioTryClaim s id wid now).1 =
      s.map (fun j => if j.job_id == id && j.status == "pending"
        then { j with status := "processing", processing_started_at := some now,
                      worker_id := some wid }
        else j) := by
  show (updateWhere _ _ s).1 = _
  exact updateWhere_fst _ _ s

theorem updateWhere_snd_nonempty_iff {α : Type} {p : α → Bool} {f : α → α} {s : List α} :
    ((updateWhere p f s).2.isEmpty = false) ↔ ∃ x ∈ s, p x = true := by
  constructor
  · intro h
    by_contra hc
    push_neg at hc
    have hall : ∀ x ∈ s, p x = false := by
      intro x hx
      simpa using hc x hx
    rw [updateWhere_snd_empty_iff.mpr hall] at h
    simp at h
  · rintro ⟨x, hx, hpx⟩
    cases hb : (updateWhere p f s).2.isEmpty with
    | false => rfl
    | true =>
      rw [updateWhere_snd_empty_iff] at hb
      rw [hb x hx] at hpx
      exact absurd hpx Bool.false_ne_true

theorem audioTryClaim_snd_iff (s : JobStore) (id wid : String) (now : Nat) :
    (audioTryClaim s id wid now).2 = true ↔
      ∃ j ∈ s, j.job_id = id ∧ j.status = "pending" := by
  show (!(updateWhere _ _ s).2.isEmpty) = true ↔ _
  rw [Bool.not_eq_true']
  rw [updateWhere_snd_nonempty_iff]
  constructor
  · rintro ⟨x, hx, hpx⟩
    rw [Bool.and_eq_true, beq_iff_eq, beq_iff_eq] at hpx
    exact ⟨x, hx, hpx⟩
  · rintro ⟨j, hj, h1, h2⟩
    exact ⟨j, hj, by simp [h1, h2]⟩

theorem audioTryClaim_fail_eq {s : JobStore} {id wid : String} {now : Nat}
    (h : (audioTryClaim s id wid now).2 = false) :
    (audioTryClaim s id wid now).1 = s := by
  apply updateWhere_fst_of_none
  intro x hx
  cases hb : (x.job_id == id && x.status == "pending") with
  | false => rfl
  | true =>
    have : (audioTryClaim s id wid now).2 = true := by
      rw [audioTryClaim_snd_iff]
      rw [Bool.and_eq_true, beq_iff_eq, beq_iff_eq] at hb
      exact ⟨x, hx, hb⟩
    rw [h] at this
    exact absurd this Bool.false_ne_true

theorem audioTryClaim_no_pending (s : JobStore) (id wid : String) (now : Nat) :
    ∀ j ∈ (audioTryClaim s id wid now).1, j.job_id = id → j.status ≠ "pending" := by
  intro j hj hid hcon
  rw [audioTryClaim_fst] at hj
  obtain ⟨x, hx, hxe⟩ := List.mem_map.mp hj
  by_cases hp : (x.job_id == id && x.status == "pending") = true
  · rw [if_pos hp] at hxe
    rw [← hxe] at hcon
    simp at hcon
  · rw [if_neg hp] at hxe
    subst hxe
    rw [Bool.and_eq_true, beq_iff_eq, beq_iff_eq] at hp
    exact hp ⟨hid, hcon⟩

theorem jobLe_refl (a : Job) : jobLe a a = true := by
  simp [jobLe]

theorem jobLe_total (a b : Job) : (jobLe a b || jobLe b a) = true := by
  simp only [jobLe, Bool.or_eq_true, Bool.and_eq_true, decide_eq_true_eq, beq_iff_eq]
  omega

theorem jobLe_trans (a b c : Job) :
    jobLe a b = true → jobLe b c = true → jobLe a c = true := by
  simp only [jobLe, Bool.or_eq_true, Bool.and_eq_true, decide_eq_true_eq, beq_iff_eq]
  omega

/-- The two workers run the same claim update. -/
theorem videoTryClaim_eq_audioTryClaim : videoTryClaim = audioTryClaim := rfl

theorem audioTryClaimSeq_all_fail {s : JobStore} {id : String}
    (h : ∀ j ∈ s, j.job_id = id → j.status ≠ "pending") :
    ∀ calls : List (String × Nat), (audioTryClaimSeq s id calls).2.count true = 0 := by
  intro calls
  induction calls generalizing s with
  | nil => simp [audioTryClaimSeq]
  | cons c rest ih =>
    have hfail : (audioTryClaim s id c.1 c.2).2 = false := by
      cases hb : (audioTryClaim s id c.1 c.2).2 with
      | false => rfl
      | true =>
        rw [audioTryClaim_snd_iff] at hb
        obtain ⟨j, hj, h1, h2⟩ := hb
        exact absurd h2 (h j hj h1)
    have hkeep : (audioTryClaim s id c.1 c.2).1 = s := audioTryClaim_fail_eq hfail
    show (audioTryClaimSeq s id (c :: rest)).2.count true = 0
    simp only [audioTryClaimSeq]
    rw [hkeep, hfail]
    simp [List.count_cons, ih h]

theorem audioTryClaimSeq_exactly_one {s : JobStore} {id : String}
    (hp : ∃ j ∈ s, j.job_id = id ∧ j.status = "pending") :
    ∀ calls : List (String × Nat), calls ≠ [] →
      (audioTryClaimSeq s id calls).2.count true = 1 := by
  intro calls hne
  cases calls with
  | nil => exact absurd rfl hne
  | cons c rest =>
    have hsucc : (audioTryClaim s id c.1 c.2).2 = true :=
      (audioTryClaim_snd_iff s id c.1 c.2).mpr hp
    simp only [audioTryClaimSeq]
    rw [hsucc]
    simp only [List.count_cons]
    rw [audioTryClaimSeq_all_fail (audioTryClaim_no_pending s id c.1 c.2) rest]
    simp

/-! ### Claim C1 -/

/-- C1: TryClaim (the claim step of get_pending_job) succeeds exactly when a
row of the job is still `pending` at the moment of the update; the single
atomic update then sets status=`processing`, the claiming worker's id and
`processing_started_at` on the pending rows of that job and touches nothing
else; when the job is no longer `pending` the call reports failure by
returning no data (a `false`, not an error) and leaves every record
unchanged; hence of any serialisation of N ≥ 1 concurrent TryClaim calls on
the same pending job (each call being one atomic store update) exactly one
returns true.  The video worker's claim step is the identical update. -/
theorem tryClaim_conditional_transition (s : JobStore) (id wid : String) (now : Nat)
    (calls : List (String × Nat)) :
    videoTryClaim s id wid now = audioTryClaim s id wid now
    ∧ ((audioTryClaim s id wid now).2 = true ↔
        ∃ j ∈ s, j.job_id = id ∧ j.status = "pending")
    ∧ List.Forall₂ (fun j j2 =>
        (j.job_id = id ∧ j.status = "pending" ∧
          j2 = { j with status := "processing", processing_started_at := some now,
                        worker_id := some wid })
        ∨ (¬(j.job_id = id ∧ j.status = "pending") ∧ j2 = j))
        s (audioTryClaim s id wid now).1
    ∧ ((audioTryClaim s id wid now).2 = false → (audioTryClaim s id wid now).1 = s)
    ∧ ((∃ j ∈ s, j.job_id = id ∧ j.status = "pending") → calls ≠ [] →
        (audioTryClaimSeq s id calls).2.count true = 1) := by
  refine ⟨rfl, audioTryClaim_snd_iff s id wid now, ?_,
    fun h => audioTryClaim_fail_eq h,
    fun hp hne => audioTryClaimSeq_exactly_one hp calls hne⟩
  rw [audioTryClaim_fst]
  apply forall₂_map_self
  intro x _
  by_cases hp : (x.job_id == id && x.status == "pending") = true
  · rw [if_pos hp]
    rw [Bool.and_eq_true, beq_iff_eq, beq_iff_eq] at hp
    exact Or.inl ⟨hp.1, hp.2, rfl⟩
  · rw [if_neg hp]
    refine Or.inr ⟨?_, rfl⟩
    intro hc
    exact hp (by simp [hc.1, hc.2])

def c1job : Job := { baseJob with job_id := "J1", status := "pending" }

/-- Witness for C1: on a store holding one pending job, three serialised
claim calls produce exactly one success, and a single call succeeds. -/
theorem tryClaim_conditional_transition_witness :
    (audioTryClaimSeq [c1job] "J1" [("w1", 0), ("w2", 1), ("w3", 2)]).2.count true = 1 ∧
    (audioTryClaim [c1job] "J1" "w1" 0).2 = true := by
  have h := tryClaim_conditional_transition [c1job] "J1" "w1" 0
    [("w1", 0), ("w2", 1), ("w3", 2)]
  refine ⟨h.2.2.2.2 ⟨c1job, by simp, rfl, rfl⟩ (by simp), ?_⟩
  exact h.2.1.mpr ⟨c1job, by simp, rfl, rfl⟩

/-! ### Claim C5 -/

theorem head?_take_one {α : Type} (l : List α) : (l.take 1).head? = l.head? := by
  cases l <;> rfl

theorem jobLe_iff (a b : Job) : jobLe a b = true ↔
    (b.priority < a.priority ∨ (a.priority = b.priority ∧ a.created_at ≤ b.created_at)) := by
  simp only [jobLe, Bool.or_eq_true, Bool.and_eq_true, decide_eq_true_eq, beq_iff_eq]

theorem audioListClaimable_pending (s : JobStore) (lim : Nat) :
    ∀ j ∈ audioListClaimable s lim, j.status = "pending" := by
  intro j hj
  have h1 : j ∈ (s.filter (fun j => j.status == "pending")).mergeSort jobLe :=
    List.Sublist.mem hj (List.take_sublist _ _)
  rw [List.mem_mergeSort] at h1
  exact beq_iff_eq.mp (List.mem_filter.mp h1).2

theorem audioListClaimable_sorted (s : JobStore) (lim : Nat) :
    (audioListClaimable s lim).Pairwise (fun a b => jobLe a b = true) :=
  List.Pairwise.sublist (List.take_sublist _ _)
    (List.sorted_mergeSort jobLe_trans jobLe_total _)

theorem audioListClaimable_head_max {s : JobStore} {hd : Job}
    (h : (audioListClaimable s 1).head? = some hd) :
    ∀ j ∈ s, j.status = "pending" → jobLe hd j = true := by
  intro j hj hpend
  have hh : ((s.filter (fun j => j.status == "pending")).mergeSort jobLe).head? = some hd := by
    rw [← head?_take_one]
    exact h
  have hmem : j ∈ (s.filter (fun j => j.status == "pending")).mergeSort jobLe := by
    rw [List.mem_mergeSort, List.mem_filter]
    exact ⟨hj, by simp [hpend]⟩
  have hsorted := List.sorted_mergeSort jobLe_trans jobLe_total
      (s.filter (fun j => j.status == "pending"))
  cases hls : (s.filter (fun j => j.status == "pending")).mergeSort jobLe with
  | nil =>
    rw [hls] at hh
    exact absurd hh (by simp)
  | cons a t =>
    rw [hls] at hh hmem hsorted
    have ha : a = hd := by simpa using hh
    rw [List.pairwise_cons] at hsorted
    rcases List.mem_cons.mp hmem with hja | hjt
    · rw [hja, ← ha]
      exact jobLe_refl a
    · rw [← ha]
      exact hsorted.1 j hjt

/-- C5 (amended): the audio worker's candidate query returns only `pending`
jobs, ordered by priority descending then created_at ascending — so of two
pending jobs with equal priority the earlier created_at comes first, and
the single candidate it polls is maximal among all pending jobs.  The local
video worker's candidate query also returns only `pending` jobs but has no
ORDER BY: it takes the pending rows in store order, so it need not select a
highest-priority job first. -/
theorem listClaimable_priority_order (s : JobStore) (lim : Nat) (hd : Job) :
    (∀ j ∈ audioListClaimable s lim, j.status = "pending")
    ∧ (audioListClaimable s lim).Pairwise (fun a b =>
        b.priority < a.priority ∨ (a.priority = b.priority ∧ a.created_at ≤ b.created_at))
    ∧ ((audioListClaimable s 1).head? = some hd →
        ∀ j ∈ s, j.status = "pending" →
          j.priority < hd.priority ∨ (hd.priority = j.priority ∧ hd.created_at ≤ j.created_at))
    ∧ (∀ j ∈ videoListClaimable s lim, j.status = "pending")
    ∧ videoListClaimable s lim = (s.filter (fun j => j.status == "pending")).take lim := by
  refine ⟨audioListClaimable_pending s lim, ?_, ?_, ?_, rfl⟩
  · exact (audioListClaimable_sorted s lim).imp (fun h => (jobLe_iff _ _).mp h)
  · intro h j hj hpend
    exact (jobLe_iff _ _).mp (audioListClaimable_head_max h j hj hpend)
  · intro j hj
    have h1 : j ∈ s.filter (fun j => j.status == "pending") :=
      List.Sublist.mem hj (List.take_sublist _ _)
    exact beq_iff_eq.mp (List.mem_filter.mp h1).2

def c5A : Job := { baseJob with job_id := "A", priority := 5 }

def c5B : Job := { baseJob with job_id := "B", priority := 10 }

/-- Counterexample to C5 as stated: with two pending jobs A (priority 5,
stored first) and B (priority 10), the local video worker's
get_pending_job selects and claims A — a lower-priority pending job is
returned while a higher-priority one exists, because its candidate query
has no ordering. -/
theorem video_candidate_ignores_priority :
    (videoGetPendingJob [c5A, c5B] "w" 0).2 = some c5A
    ∧ c5A.priority < c5B.priority
    ∧ c5A.status = "pending" ∧ c5B.status = "pending" := by
  refine ⟨rfl, by decide, rfl, rfl⟩

/-- Witness for C5 (amended): on the same two-job store the audio worker's
query returns B, the priority-10 job, first. -/
theorem listClaimable_priority_order_witness :
    (audioListClaimable [c5A, c5B] 1).head? = some c5B ∧
    ∀ j ∈ [c5A, c5B], j.status = "pending" →
      j.priority < c5B.priority ∨ (c5B.priority = j.priority ∧ c5B.created_at ≤ j.created_at) := by
  have h := (listClaimable_priority_order [c5A, c5B] 1 c5B).2.2.1
  have he : (audioListClaimable [c5A, c5B] 1).head? = some c5B := by
    simp [audioListClaimable, List.mergeSort, jobLe, c5A, c5B, baseJob]
  exact ⟨he, h he⟩

/-! ### Claims C2, C3, C10 -/

theorem audioMarkJobFailed_find {s : JobStore} {ws : WorkerStore} {wid : String}
    {maxR : Nat} {id msg : String} {j : Job} (hj : findJob s id = some j) :
    findJob (audioMarkJobFailed s ws wid maxR id msg).1 id =
      some { j with status := if maxR ≤ j.retry_count + 1 then "failed" else "pending",
                    error_message := some (msg.take 500),
                    retry_count := j.retry_count + 1 } := by
  show List.find? _ (audioMarkJobFailed s ws wid maxR id msg).1 = _
  simp only [audioMarkJobFailed, hj]
  rw [updateWhere_fst]
  rw [find?_map_if (fun (x : Job) => x.job_id == id)
    (fun x => { x with status := if maxR ≤ j.retry_count + 1 then "failed" else "pending",
                       error_message := some (msg.take 500),
                       retry_count := j.retry_count + 1 })
    (fun x => rfl) s]
  show (findJob s id).map _ = _
  rw [hj]
  rfl

theorem cancelJob_fst (s : JobStore) (id : String) :
    (cancelJob s id).1 =
      s.map (fun j => if j.job_id == id && j.status == "pending"
        then { j with status := "failed", error_message := some "Cancelled by user" }
        else j) := by
  show (updateWhere _ _ s).1 = _
  exact updateWhere_fst _ _ s

theorem cancelJob_snd_iff (s : JobStore) (id : String) :
    (cancelJob s id).2 = true ↔ ∃ j ∈ s, j.job_id = id ∧ j.status = "pending" := by
  show (!(updateWhere _ _ s).2.isEmpty) = true ↔ _
  rw [Bool.not_eq_true']
  rw [updateWhere_snd_nonempty_iff]
  constructor
  · rintro ⟨x, hx, hpx⟩
    rw [Bool.and_eq_true, beq_iff_eq, beq_iff_eq] at hpx
    exact ⟨x, hx, hpx⟩
  · rintro ⟨j, hj, h1, h2⟩
    exact ⟨j, hj, by simp [h1, h2]⟩

theorem cancelJob_fail_eq {s : JobStore} {id : String}
    (h : (cancelJob s id).2 = false) : (cancelJob s id).1 = s := by
  apply updateWhere_fst_of_none
  intro x hx
  cases hb : (x.job_id == id && x.status == "pending") with
  | false => rfl
  | true =>
    have : (cancelJob s id).2 = true := by
      rw [cancelJob_snd_iff]
      rw [Bool.and_eq_true, beq_iff_eq, beq_iff_eq] at hb
      exact ⟨x, hx, hb⟩
    rw [h] at this
    exact absurd this Bool.false_ne_true

/-- C2: mark_job_failed sets retry_count to the previous value plus one,
stores the error message truncated to at most 500 characters, and sets
status to `failed` exactly when the new retry_count reaches `max_retries`,
else back to `pending`.  The video worker's mark_job_failed is the
identical function. -/
theorem markJobFailed_retry_bookkeeping (s : JobStore) (ws : WorkerStore)
    (wid : String) (maxRetries : Nat) (id msg : String) (j : Job)
    (hj : findJob s id = some j) :
    videoMarkJobFailed = audioMarkJobFailed
    ∧ ∃ j2, findJob (audioMarkJobFailed s ws wid maxRetries id msg).1 id = some j2
        ∧ j2.retry_count = j.retry_count + 1
        ∧ j2.error_message = some (msg.take 500)
        ∧ (msg.take 500).length ≤ 500
        ∧ (j2.status = "failed" ↔ maxRetries ≤ j.retry_count + 1)
        ∧ (j2.status = "pending" ↔ j.retry_count + 1 < maxRetries) := by
  refine ⟨rfl,
    ⟨{ j with status := if maxRetries ≤ j.retry_count + 1 then "failed" else "pending",
              error_message := some (msg.take 500),
              retry_count := j.retry_count + 1 },
      audioMarkJobFailed_find hj, rfl, rfl, length_take500 msg, ?_, ?_⟩⟩
  · show (if maxRetries ≤ j.retry_count + 1 then "failed" else "pending") = "failed" ↔ _
    by_cases hc : maxRetries ≤ j.retry_count + 1
    · rw [if_pos hc]
      exact ⟨fun _ => hc, fun _ => rfl⟩
    · rw [if_neg hc]
      exact ⟨fun hp => absurd hp (by decide), fun hm => absurd hm hc⟩
  · show (if maxRetries ≤ j.retry_count + 1 then "failed" else "pending") = "pending" ↔ _
    by_cases hc : maxRetries ≤ j.retry_count + 1
    · rw [if_pos hc]
      exact ⟨fun hp => absurd hp (by decide), fun hlt => absurd hlt (by omega)⟩
    · rw [if_neg hc]
      exact ⟨fun _ => by omega, fun _ => rfl⟩

def c2job : Job := { baseJob with job_id := "J2", status := "processing", retry_count := 1 }

/-- Witness for C2: failing a processing job with retry_count 1 under
max_retries 3 yields retry_count 2 and status `pending`. -/
theorem markJobFailed_retry_bookkeeping_witness :
    ∃ j2, findJob (audioMarkJobFailed [c2job] [] "w" 3 "J2" "boom").1 "J2" = some j2
      ∧ j2.retry_count = 2 ∧ j2.status = "pending" := by
  have h := markJobFailed_retry_bookkeeping [c2job] [] "w" 3 "J2" "boom" c2job rfl
  obtain ⟨j2, h1, h2, h3, h4, h5, h6⟩ := h.2
  exact ⟨j2, h1, h2, h6.mpr (by decide)⟩

def c3job : Job := { baseJob with job_id := "C3", status := "completed" }

/-- Counterexample to C3 as stated: mark_job_failed updates by job_id with
no status guard, so calling Fail on an already `completed` job moves it
back to `pending` (retry 1 < max 3) — a transition out of a terminal
state. -/
theorem fail_reopens_completed_job :
    findJob (audioMarkJobFailed [c3job] [] "w" 3 "C3" "late failure").1 "C3" =
      some { c3job with status := "pending", error_message := some "late failure",
                        retry_count := 1 }
    ∧ c3job.status = "completed" := by
  refine ⟨?_, rfl⟩
  have h := @audioMarkJobFailed_find [c3job] [] "w" 3 "C3" "late failure" c3job rfl
  rw [h, take500_of_short "late failure" (by decide)]
  rfl

/-- C3 (amended): once a job is `completed` or `failed`, the claim updates
of both workers and cancel_job leave its record (and the whole store)
unchanged and report failure, because their updates are conditioned on
status = `pending`; Complete and Fail, by contrast, update unconditionally
by job_id and can still change a terminal job's status. -/
theorem terminal_frozen_for_claim_and_cancel (s : JobStore) (id wid : String) (now : Nat)
    (hterm : ∀ j ∈ s, j.job_id = id → j.status = "completed" ∨ j.status = "failed") :
    (audioTryClaim s id wid now).1 = s ∧ (audioTryClaim s id wid now).2 = false
    ∧ (videoTryClaim s id wid now).1 = s ∧ (videoTryClaim s id wid now).2 = false
    ∧ (cancelJob s id).1 = s ∧ (cancelJob s id).2 = false := by
  have hnp : ¬ ∃ j ∈ s, j.job_id = id ∧ j.status = "pending" := by
    rintro ⟨j, hj, h1, h2⟩
    rcases hterm j hj h1 with hc | hf
    · rw [h2] at hc
      exact absurd hc (by decide)
    · rw [h2] at hf
      exact absurd hf (by decide)
  have hclaim : (audioTryClaim s id wid now).2 = false := by
    cases hb : (audioTryClaim s id wid now).2 with
    | false => rfl
    | true => exact absurd ((audioTryClaim_snd_iff s id wid now).mp hb) hnp
  have hcancel : (cancelJob s id).2 = false := by
    cases hb : (cancelJob s id).2 with
    | false => rfl
    | true => exact absurd ((cancelJob_snd_iff s id).mp hb) hnp
  exact ⟨audioTryClaim_fail_eq hclaim, hclaim,
    audioTryClaim_fail_eq hclaim, hclaim,
    cancelJob_fail_eq hcancel, hcancel⟩

def c3fjob : Job := { baseJob with job_id := "C3F", status := "failed" }

/-- Witness for C3 (amended): a store holding one `failed` job is untouched
by claim and cancel. -/
theorem terminal_frozen_for_claim_and_cancel_witness :
    (audioTryClaim [c3fjob] "C3F" "w" 0).1 = [c3fjob]
    ∧ (cancelJob [c3fjob] "C3F").2 = false := by
  have h := terminal_frozen_for_claim_and_cancel [c3fjob] "C3F" "w" 0
    (by intro j hj h1; rw [List.mem_singleton] at hj; rw [hj]; exact Or.inr rfl)
  exact ⟨h.1, h.2.2.2.2.2⟩

/-! ### Claim C10 -/

/-- C10: cancel_job is a conditional pending→failed transition: it returns
true exactly when the job has a `pending` row at the moment of the update,
in which case that row gets status `failed` and error_message
`Cancelled by user`; for a job in any other status it returns false and
the store is unchanged. -/
theorem cancelJob_conditional_transition (s : JobStore) (id : String) :
    ((cancelJob s id).2 = true ↔ ∃ j ∈ s, j.job_id = id ∧ j.status = "pending")
    ∧ List.Forall₂ (fun j j2 =>
        (j.job_id = id ∧ j.status = "pending" ∧
          j2 = { j with status := "failed", error_message := some "Cancelled by user" })
        ∨ (¬(j.job_id = id ∧ j.status = "pending") ∧ j2 = j)) s (cancelJob s id).1
    ∧ ((cancelJob s id).2 = false → (cancelJob s id).1 = s) := by
  refine ⟨cancelJob_snd_iff s id, ?_, fun h => cancelJob_fail_eq h⟩
  rw [cancelJob_fst]
  apply forall₂_map_self
  intro x _
  by_cases hp : (x.job_id == id && x.status == "pending") = true
  · rw [if_pos hp]
    rw [Bool.and_eq_true, beq_iff_eq, beq_iff_eq] at hp
    exact Or.inl ⟨hp.1, hp.2, rfl⟩
  · rw [if_neg hp]
    refine Or.inr ⟨?_, rfl⟩
    intro hc
    exact hp (by simp [hc.1, hc.2])

def c10job : Job := { baseJob with job_id := "X", status := "processing" }

/-- Witness for C10: cancelling a job that is already `processing` returns
false and leaves the store unchanged. -/
theorem cancelJob_conditional_transition_witness :
    (cancelJob [c10job] "X").1 = [c10job] ∧ (cancelJob [c10job] "X").2 = false := by
  have h := (cancelJob_conditional_transition [c10job] "X").2.2
  have hf : (cancelJob [c10job] "X").2 = false := by rfl
  exact ⟨h hf, hf⟩

/-! ### Claim C4 -/

theorem updateWhere_fst_idem {α : Type} (p : α → Bool) (f : α → α)
    (hp : ∀ x, p (f x) = p x) (hf : ∀ x, f (f x) = f x) (s : List α) :
    (updateWhere p f (updateWhere p f s).1).1 = (updateWhere p f s).1 := by
  rw [updateWhere_fst p f s, updateWhere_fst p f _, List.map_map]
  apply List.map_congr_left
  intro a _
  show (fun x => if p x then f x else x) ((fun x => if p x then f x else x) a) = _
  by_cases hpa : p a = true
  · simp only [hpa, if_true, hp, hf]
  · simp only [hpa]
    simp [hpa]

theorem findWorker_incJobsCompleted {ws : WorkerStore} {wid : String} {w : WorkerRow}
    (hw : findWorker ws wid = some w) :
    findWorker (incJobsCompleted ws wid) wid =
      some { w with jobs_completed := w.jobs_completed + 1 } := by
  show List.find? _ (incJobsCompleted ws wid) = _
  simp only [incJobsCompleted, hw]
  rw [updateWhere_fst]
  rw [find?_map_if (fun (x : WorkerRow) => x.worker_id == wid)
    (fun x => { x with jobs_completed := w.jobs_completed + 1 }) (fun x => rfl) ws]
  show (findWorker ws wid).map _ = _
  rw [hw]
  rfl

def c4job : Job := { baseJob with job_id := "D", status := "processing" }

def c4worker : WorkerRow :=
  { worker_id := "w", status := "online", jobs_completed := 0, jobs_failed := 0 }

/-- Counterexample to C4 as stated: calling mark_job_completed a second
time on the already-completed job, with the same result and even the same
timestamp, is not a no-op — the worker's jobs_completed counter is
incremented again (1 after the first call, 2 after the second). -/
theorem second_complete_bumps_counter :
    (audioMarkJobCompleted
        (audioMarkJobCompleted [c4job] [c4worker] "w" "D" "gid" none 5).1
        (audioMarkJobCompleted [c4job] [c4worker] "w" "D" "gid" none 5).2
        "w" "D" "gid" none 5) ≠
      audioMarkJobCompleted [c4job] [c4worker] "w" "D" "gid" none 5
    ∧ findWorker (audioMarkJobCompleted
        (audioMarkJobCompleted [c4job] [c4worker] "w" "D" "gid" none 5).1
        (audioMarkJobCompleted [c4job] [c4worker] "w" "D" "gid" none 5).2
        "w" "D" "gid" none 5).2 "w" = some { c4worker with jobs_completed := 2 }
    ∧ findWorker (audioMarkJobCompleted [c4job] [c4worker] "w" "D" "gid" none 5).2 "w" =
        some { c4worker with jobs_completed := 1 } := by
  refine ⟨?_, rfl, rfl⟩
  intro h
  have h2 := congrArg (fun r => findWorker r.2 "w") h
  simp only at h2
  have : (2 : Nat) = 1 := by
    have h3 : some { c4worker with jobs_completed := 2 } =
        some { c4worker with jobs_completed := 1 } := h2
    have h4 := Option.some.inj h3
    exact congrArg WorkerRow.jobs_completed h4
  omega

/-- C4 (amended): repeating mark_job_completed with the same result and the
same timestamp leaves the job table unchanged (the row update is
idempotent), but each call increments the worker's jobs_completed counter
again — jobs_completed is `n+1` after the first call and `n+2` after the
second — so completion is not a no-op on the worker registry.  The same
holds for the video worker's mark_job_completed. -/
theorem complete_second_call_effect (s : JobStore) (ws : WorkerStore)
    (wid id gid gl : String) (link : Option String) (now : Nat) (w : WorkerRow)
    (hw : findWorker ws wid = some w) :
    ((audioMarkJobCompleted (audioMarkJobCompleted s ws wid id gid link now).1
        (audioMarkJobCompleted s ws wid id gid link now).2 wid id gid link now).1 =
      (audioMarkJobCompleted s ws wid id gid link now).1)
    ∧ findWorker (audioMarkJobCompleted s ws wid id gid link now).2 wid =
        some { w with jobs_completed := w.jobs_completed + 1 }
    ∧ findWorker (audioMarkJobCompleted (audioMarkJobCompleted s ws wid id gid link now).1
        (audioMarkJobCompleted s ws wid id gid link now).2 wid id gid link now).2 wid =
        some { w with jobs_completed := w.jobs_completed + 1 + 1 }
    ∧ ((videoMarkJobCompleted (videoMarkJobCompleted s ws wid id gid gl now).1
        (videoMarkJobCompleted s ws wid id gid gl now).2 wid id gid gl now).1 =
      (videoMarkJobCompleted s ws wid id gid gl now).1)
    ∧ findWorker (videoMarkJobCompleted (videoMarkJobCompleted s ws wid id gid gl now).1
        (videoMarkJobCompleted s ws wid id gid gl now).2 wid id gid gl now).2 wid =
        some { w with jobs_completed := w.jobs_completed + 1 + 1 } := by
  have h1 : findWorker (incJobsCompleted ws wid) wid =
      some { w with jobs_completed := w.jobs_completed + 1 } :=
    findWorker_incJobsCompleted hw
  refine ⟨?_, h1, ?_, ?_, ?_⟩
  · exact updateWhere_fst_idem (fun (j : Job) => j.job_id == id)
      (fun j => { j with status := "completed", completed_at := some now,
                         audio_gdrive_id := some gid, gofile_link := link })
      (fun x => rfl) (fun x => rfl) s
  · exact findWorker_incJobsCompleted h1
  · exact updateWhere_fst_idem (fun (j : Job) => j.job_id == id)
      (fun j => { j with status := "completed", completed_at := some now,
                         video_gdrive_id := some gid, video_gofile_link := some gl })
      (fun x => rfl) (fun x => rfl) s
  · exact findWorker_incJobsCompleted h1

/-- Witness for C4 (amended): concrete first and second completions bump
the counter to 1 and then 2. -/
theorem complete_second_call_effect_witness :
    findWorker (audioMarkJobCompleted [c4job] [c4worker] "w" "D" "gid" none 5).2 "w" =
      some { c4worker with jobs_completed := 1 } := by
  have h := complete_second_call_effect [c4job] [c4worker] "w" "D" "gid" "gl" none 5
    c4worker rfl
  exact h.2.1

/-! ### Claim C8 -/

/-- Equality of all job columns other than status, error_message and
retry_count. -/
def frameEq (a b : Job) : Prop :=
  a.job_id = b.job_id ∧ a.priority = b.priority ∧ a.created_at = b.created_at
  ∧ a.worker_id = b.worker_id ∧ a.processing_started_at = b.processing_started_at
  ∧ a.completed_at = b.completed_at ∧ a.chat_id = b.chat_id
  ∧ a.script_text = b.script_text ∧ a.reference_audio_gdrive_id = b.reference_audio_gdrive_id
  ∧ a.audio_gdrive_id = b.audio_gdrive_id ∧ a.gofile_link = b.gofile_link
  ∧ a.image_gdrive_id = b.image_gdrive_id ∧ a.video_gdrive_id = b.video_gdrive_id
  ∧ a.video_gofile_link = b.video_gofile_link ∧ a.subtitle_style = b.subtitle_style

/-- C8: a Fail call rewrites only status, error_message and retry_count:
row for row, every other column — in particular the ordering keys priority
and created_at, the job id and the payload columns — is unchanged, in both
workers' mark_job_failed; so a job sent back to `pending` re-enters the
pool with its original priority and its original place in that tier. -/
theorem markJobFailed_frame (s : JobStore) (ws : WorkerStore) (wid : String)
    (maxR : Nat) (id msg : String) :
    List.Forall₂ frameEq s (audioMarkJobFailed s ws wid maxR id msg).1
    ∧ List.Forall₂ frameEq s (videoMarkJobFailed s ws wid maxR id msg).1 := by
  constructor <;>
  · show List.Forall₂ frameEq s (updateWhere _ _ s).1
    rw [updateWhere_fst]
    apply forall₂_map_self
    intro x _
    by_cases hp : (x.job_id == id) = true
    · rw [if_pos hp]
      exact ⟨rfl, rfl, rfl, rfl, rfl, rfl, rfl, rfl, rfl, rfl, rfl, rfl, rfl, rfl, rfl⟩
    · rw [if_neg hp]
      exact ⟨rfl, rfl, rfl, rfl, rfl, rfl, rfl, rfl, rfl, rfl, rfl, rfl, rfl, rfl, rfl⟩

/-! ### Claim C6 -/

/-- C6 (amended): the audio worker sleeps the poll interval exactly when
get_pending_job returned None — which happens both when no pending
candidate exists and when the claim update lost the race — so a lost claim
is followed by the fixed-interval sleep rather than an immediate re-poll;
the video worker executes the sleep at the end of every cycle whatever the
outcome, including after processing a job. -/
theorem run_cycle_sleep_condition (s1 s2 : JobStore) (wid : String) (now : Nat) :
    (audioRunCycleSleeps s1 s2 wid now = true ↔
      (audioListClaimable s1 1).head? = none
      ∨ ∃ j, (audioListClaimable s1 1).head? = some j
          ∧ (audioTryClaim s2 j.job_id wid now).2 = false)
    ∧ videoRunCycleSleeps s1 s2 wid now = true := by
  refine ⟨?_, rfl⟩
  cases hh : (audioListClaimable s1 1).head? with
  | none =>
    simp only [audioRunCycleSleeps, audioGetPendingJobI, hh]
    simp
  | some j =>
    simp only [audioRunCycleSleeps, audioGetPendingJobI, hh]
    cases hb : (audioTryClaim s2 j.job_id wid now).2 with
    | false =>
      simp only [hb, if_false, Bool.false_eq_true, Option.isNone_none]
      constructor
      · intro _
        exact Or.inr ⟨j, rfl, hb⟩
      · intro _
        trivial
    | true =>
      simp only [hb, if_true, Option.isNone_some]
      constructor
      · intro hfalse
        exact absurd hfalse (by decide)
      · rintro (hc | ⟨j2, hj2, hb2⟩)
        · exact absurd hc (by simp)
        · have hjj : j2 = j := (Option.some.inj hj2).symm
          rw [hjj, hb] at hb2
          exact absurd hb2 (by decide)

def c6pend : Job := { baseJob with job_id := "E", status := "pending" }

def c6proc : Job := { baseJob with job_id := "E", status := "processing" }

/-- Counterexample to C6 as stated: the audio worker's candidate query
found pending job E, a competing writer turned it to `processing` before
the claim update, the claim therefore failed — and the worker still sleeps
the poll interval, because get_pending_job returns None for a lost claim
exactly as for an empty queue and run sleeps whenever it gets None. -/
theorem lost_claim_still_sleeps :
    (audioListClaimable [c6pend] 1).head? = some c6pend
    ∧ (audioTryClaim [c6proc] "E" "w" 0).2 = false
    ∧ audioRunCycleSleeps [c6pend] [c6proc] "w" 0 = true := by
  have hh : (audioListClaimable [c6pend] 1).head? = some c6pend := by
    simp [audioListClaimable, List.mergeSort, c6pend, baseJob]
  refine ⟨hh, rfl, ?_⟩
  simp only [audioRunCycleSleeps, audioGetPendingJobI, hh]
  rfl

/-! ### Claim C7 -/

/-- C7: a handler-reported failure is always converted into a Fail
transition on the job plus a failure-notification attempt, for every store
and every current retry_count (so for retryable and final failures alike),
and process_job returns normally rather than re-raising: for the audio
worker a generation error `msg` yields exactly
`mark_job_failed(job_id, "Job processing error: " + msg)` with the failure
notification fired and no success notification; for the video worker a
generation failure yields `mark_job_failed(job_id, "Video generation
failed")` likewise. -/
theorem handler_failure_converted_to_fail (env : AudioExecEnv) (venv : VideoExecEnv)
    (s : JobStore) (ws : WorkerStore) (fs : List String) (job : Job) (wid : String)
    (now : Nat) (msg : String)
    (hsync : env.syncOk = true ∨ job.reference_audio_gdrive_id = none)
    (hgen : env.genError = some msg)
    (hva : venv.audioDownloadOk = true) (hvi : venv.imageDownloadOk = true)
    (hvg : venv.genOk = false) :
    ((audioProcessJob env s ws fs job wid now).jobs,
      (audioProcessJob env s ws fs job wid now).workers) =
        audioMarkJobFailed s ws wid 3 job.job_id ("Job processing error: " ++ msg)
    ∧ (audioProcessJob env s ws fs job wid now).failureNotif = true
    ∧ (audioProcessJob env s ws fs job wid now).successNotif = false
    ∧ ((videoProcessJob venv s ws fs job wid now).jobs,
      (videoProcessJob venv s ws fs job wid now).workers) =
        videoMarkJobFailed s ws wid 3 job.job_id "Video generation failed"
    ∧ (videoProcessJob venv s ws fs job wid now).failureNotif = true
    ∧ (videoProcessJob venv s ws fs job wid now).successNotif = false := by
  have hbody : audioProcessJobBody env s ws fs job wid now = .error (msg, fs) := by
    unfold audioProcessJobBody
    rcases hsync with hs1 | hs2
    · rw [hs1]
      simp [hgen]
    · rw [hs2]
      simp [hgen]
  have hvbody : videoProcessJobBody venv s ws fs job wid now =
      .error ("Video generation failed",
        videoImagePath job.job_id :: videoAudioPath job.job_id :: fs) := by
    unfold videoProcessJobBody
    rw [hva, hvi, hvg]
    simp
  have ha : audioProcessJob env s ws fs job wid now =
      { jobs := (audioMarkJobFailed s ws wid 3 job.job_id
          ("Job processing error: " ++ msg)).1,
        workers := (audioMarkJobFailed s ws wid 3 job.job_id
          ("Job processing error: " ++ msg)).2,
        files := fs, successNotif := false, failureNotif := true } := by
    unfold audioProcessJob
    rw [hbody]
  have hv : videoProcessJob venv s ws fs job wid now =
      { jobs := (videoMarkJobFailed s ws wid 3 job.job_id "Video generation failed").1,
        workers := (videoMarkJobFailed s ws wid 3 job.job_id "Video generation failed").2,
        files := videoFinallyCleanup
          (videoImagePath job.job_id :: videoAudioPath job.job_id :: fs) job.job_id,
        successNotif := false, failureNotif := true } := by
    unfold videoProcessJob
    rw [hvbody]
  rw [ha, hv]
  exact ⟨rfl, rfl, rfl, rfl, rfl, rfl⟩

def c7env : AudioExecEnv :=
  { syncOk := true, genError := some "F5-TTS generation error: CUDA OOM", uploadId := none }

def c7venv : VideoExecEnv :=
  { audioDownloadOk := true, imageDownloadOk := true, genOk := false,
    gdriveUploadId := none, gofileLink := none }

def c7job : Job := { baseJob with job_id := "H", status := "processing", chat_id := "42" }

/-- Witness for C7: a concrete generation failure fires the failure
notification in both workers and leaves process_job returning normally. -/
theorem handler_failure_converted_to_fail_witness :
    (audioProcessJob c7env [c7job] [] [] c7job "w" 9).failureNotif = true
    ∧ (videoProcessJob c7venv [c7job] [] [] c7job "w" 9).failureNotif = true := by
  have h := handler_failure_converted_to_fail c7env c7venv [c7job] [] [] c7job "w" 9
    "F5-TTS generation error: CUDA OOM" (Or.inl rfl) rfl rfl rfl rfl
  exact ⟨h.2.1, h.2.2.2.2.1⟩

/-! ### Claim C9 -/

theorem not_mem_removeFile (fs : List String) (p : String) : p ∉ removeFile fs p := by
  simp [removeFile, List.mem_filter]

theorem not_mem_videoFinallyCleanup (fs : List String) (id : String) :
    videoAudioPath id ∉ videoFinallyCleanup fs id
    ∧ videoImagePath id ∉ videoFinallyCleanup fs id
    ∧ videoFinalPath id ∉ videoFinallyCleanup fs id := by
  refine ⟨?_, ?_, ?_⟩ <;> simp [videoFinallyCleanup, removeFile, List.mem_filter]

theorem videoProcessJob_files (venv : VideoExecEnv) (s : JobStore) (ws : WorkerStore)
    (fs : List String) (job : Job) (wid : String) (now : Nat) :
    ∃ fs2, (videoProcessJob venv s ws fs job wid now).files =
      videoFinallyCleanup fs2 job.job_id := by
  unfold videoProcessJob
  cases videoProcessJobBody venv s ws fs job wid now with
  | ok r =>
    obtain ⟨s2, ws2, fs2, notif⟩ := r
    exact ⟨fs2, rfl⟩
  | error e =>
    obtain ⟨e1, e2⟩ := e
    exact ⟨e2, rfl⟩

def c9env : AudioExecEnv := { syncOk := true, genError := none, uploadId := none }

def c9job : Job := { baseJob with job_id := "G", status := "processing" }

/-- Counterexample to C9 as stated: in the audio worker, a failure raised
after generation (the Google-Drive upload returned nothing) leaves the
generated scratch file on disk when process_job returns — the cleanup step
is only on the success path. -/
theorem scratch_file_survives_failed_audio_job :
    audioScratchPath "G" ∈ (audioProcessJob c9env [c9job] [] [] c9job "w" 0).files
    ∧ (audioProcessJob c9env [c9job] [] [] c9job "w" 0).failureNotif = true := by
  constructor
  · show audioScratchPath "G" ∈ [audioScratchPath "G"]
    exact List.mem_singleton.mpr rfl
  · rfl

/-- C9 (amended): the local video worker removes its three per-job scratch
paths (downloaded audio, downloaded image, rendered video) in its
`finally:` block on every exit, success or failure; the audio worker
removes its generated scratch file on the success path. -/
theorem scratch_cleanup_paths (env : AudioExecEnv) (venv : VideoExecEnv)
    (s : JobStore) (ws : WorkerStore) (fs : List String) (job : Job)
    (wid : String) (now : Nat) (gid : String)
    (hsync : env.syncOk = true ∨ job.reference_audio_gdrive_id = none)
    (hgen : env.genError = none) (hupload : env.uploadId = some gid) :
    audioScratchPath job.job_id ∉ (audioProcessJob env s ws fs job wid now).files
    ∧ videoAudioPath job.job_id ∉ (videoProcessJob venv s ws fs job wid now).files
    ∧ videoImagePath job.job_id ∉ (videoProcessJob venv s ws fs job wid now).files
    ∧ videoFinalPath job.job_id ∉ (videoProcessJob venv s ws fs job wid now).files := by
  obtain ⟨fs2, hfs⟩ := videoProcessJob_files venv s ws fs job wid now
  have hnv := not_mem_videoFinallyCleanup fs2 job.job_id
  refine ⟨?_, by rw [hfs]; exact hnv.1, by rw [hfs]; exact hnv.2.1,
    by rw [hfs]; exact hnv.2.2⟩
  have hbody : audioProcessJobBody env s ws fs job wid now =
      .ok ((audioMarkJobCompleted s ws wid job.job_id gid none now).1,
           (audioMarkJobCompleted s ws wid job.job_id gid none now).2,
           removeFile (audioScratchPath job.job_id :: fs) (audioScratchPath job.job_id),
           true) := by
    unfold audioProcessJobBody
    rcases hsync with hs1 | hs2
    · rw [hs1]
      simp [hgen, hupload]
    · rw [hs2]
      simp [hgen, hupload]
  unfold audioProcessJob
  rw [hbody]
  exact not_mem_removeFile _ _

def c9venv : VideoExecEnv :=
  { audioDownloadOk := true, imageDownloadOk := true, genOk := true,
    gdriveUploadId := some "v", gofileLink := some "g" }

def c9okenv : AudioExecEnv := { syncOk := true, genError := none, uploadId := some "gid" }

/-- Witness for C9 (amended): a concrete fully successful audio run leaves
no scratch file, and a concrete video run leaves none of its three
paths. -/
theorem scratch_cleanup_paths_witness :
    audioScratchPath "G" ∉ (audioProcessJob c9okenv [c9job] [] [] c9job "w" 0).files
    ∧ videoFinalPath "G" ∉ (videoProcessJob c9venv [c9job] [] [] c9job "w" 0).files := by
  have h := scratch_cleanup_paths c9okenv c9venv [c9job] [] [] c9job "w" 0 "gid"
    (Or.inr rfl) rfl rfl
  exact ⟨h.1, h.2.2.2⟩
